import Mathlib

/-!
Verification of the csaf_distribution core against its specification.

The development embeds two source files:
* `csaf/models.go` — the provider-metadata data model, its validators,
  defaults, upsert of PGP keys, and JSON (de)serialization;
* `cmd/csaf_aggregator/processor.go` — provider-metadata discovery
  (`locateProviderMetadata`) and the orphan-removal sweep (`removeOrphans`).

Go pointers (`*T`) are embedded as `Option T`, Go slices as `List`,
Go `error` results as `Option String` (the error message) or as
`Except String` where a value is produced, and the network/filesystem as
explicit environments.
-/

namespace Csaf

/-! ### String primitives

Suffix and related tests, implemented over the character list of a string
(the same results as `strings.HasPrefix`, `strings.HasSuffix` and decimal
integer parsing deliver on Go strings). -/

/-- Whether `suffix` ends `s`. -/
def strEndsWith (s suffix : String) : Bool := suffix.data.isSuffixOf s.data

/-- Whether `pre` starts `s`. -/
def strStartsWith (s pre : String) : Bool := pre.data.isPrefixOf s.data

/-- `s` without its first `n` characters. -/
def strDrop (s : String) (n : Nat) : String := ⟨s.data.drop n⟩

/-! ### Patterns and enumerations (models.go lines 29-140)

Go compiles the patterns with `regexp.MustCompile`; each regex used by the
model is of the shape `...$` (a suffix match) or `^...$` over a simple
character class, so they are embedded as the corresponding decidable string
predicates. -/

/-- `jsonURLPattern`, regex `\.json$`: matched iff the string ends in `.json`. -/
def matchesJSONURL (s : String) : Bool := strEndsWith s ".json"

/-- `providerURLPattern`, regex `/provider-metadata\.json$`. -/
def matchesProviderURL (s : String) : Bool := strEndsWith s "/provider-metadata.json"

/-- Alternatives of `tlpLabelPattern` (`alternativesUnmarshal`). -/
def tlpLabelAlternatives : List String := ["UNLABELED", "WHITE", "GREEN", "AMBER", "RED"]

/-- Alternatives of `csafCategoryPattern`. -/
def csafCategoryAlternatives : List String :=
  ["coordinator", "discoverer", "other", "translator", "user", "vendor"]

/-- Alternatives of `metadataVersionPattern`. -/
def metadataVersionAlternatives : List String := ["2.0"]

/-- Alternatives of `metadataRolePattern`. -/
def metadataRoleAlternatives : List String :=
  ["csaf_publisher", "csaf_provider", "csaf_trusted_provider"]

/-- Membership tests for the allow-lists above. -/
def tlpLabelOK (s : String) : Bool := tlpLabelAlternatives.contains s

def csafCategoryOK (s : String) : Bool := csafCategoryAlternatives.contains s

def metadataVersionOK (s : String) : Bool := metadataVersionAlternatives.contains s

def metadataRoleOK (s : String) : Bool := metadataRoleAlternatives.contains s

/-- Character class `[0-9a-fA-F]` of `fingerprintPattern`. -/
def isHexDigit (c : Char) : Bool :=
  c.isDigit || (('a' ≤ c) && (c ≤ 'f')) || (('A' ≤ c) && (c ≤ 'F'))

/-- `fingerprintPattern`, regex `^[0-9a-fA-F]{40,}$`. -/
def matchesFingerprint (s : String) : Bool :=
  (40 ≤ s.length) && s.data.all isHexDigit

/-! ### Data model (models.go lines 42-153)

Field names follow the Go struct fields; the enumerated string types
(`TLPLabel`, `Category`, `MetadataRole`, ...) are embedded as `String`,
their patterns being enforced — as in the source — at JSON-decode time. -/

/-- Go `time.Time` as stored in a `TimeStamp`: whole seconds plus a
nanosecond part. Only the properties the claims need are modelled:
`time.RFC3339` has no fractional-second component, so marshalling drops
`nanos` (see `tsMarshal`). -/
structure TimeStamp where
  secs : Int
  nanos : Nat
deriving Repr, DecidableEq

/-- `time.Time.Format(time.RFC3339)` followed by JSON string quoting.
The calendar rendering itself is immaterial to every claim; it is modelled
as an injective rendering of the whole-second count. What is kept faithful:
the format carries no fractional seconds, hence `nanos` is dropped. -/
def tsMarshal (t : TimeStamp) : String := toString t.secs

/-- Decimal digit accumulation for `tsParse`. -/
def parseNatChars : List Char → Nat → Option Nat
  | [], acc => some acc
  | c :: cs, acc =>
    if c.isDigit then parseNatChars cs (acc * 10 + (c.toNat - 48)) else none

/-- Parse of the decimal integer rendering used by `tsMarshal`. -/
def parseIntStr (s : String) : Option Int :=
  match s.data with
  | [] => none
  | '-' :: cs =>
    match cs with
    | [] => none
    | _ => (parseNatChars cs 0).map (fun n => -(n : Int))
  | cs => (parseNatChars cs 0).map (fun n => (n : Int))

/-- `time.Parse(time.RFC3339, s)` (the `TimeStamp.UnmarshalText` body):
left inverse of `tsMarshal` on timestamps without a fractional part,
rejecting strings that are not renderings of a timestamp. -/
def tsParse (s : String) : Except String TimeStamp :=
  match parseIntStr s with
  | some n => .ok ⟨n, 0⟩
  | none => .error ("parsing time " ++ s ++ " as RFC3339 failed")

/-- models.go `Feed` (tags: summary, tlp_label, url; the two pointers are required). -/
structure Feed where
  Summary : String
  TLPLabel : Option String
  URL : Option String
deriving Repr, DecidableEq

/-- models.go `ROLIE` (tags: categories omitempty, feeds, services omitempty). -/
structure ROLIE where
  Categories : List String
  Feeds : List Feed
  Services : List String
deriving Repr, DecidableEq

/-- models.go `Distribution` (tags: directory_url omitempty, rolie). -/
structure Distribution where
  DirectoryURL : String
  Rolie : List ROLIE
deriving Repr, DecidableEq

/-- models.go `PGPKey` (tags: fingerprint omitempty, url). -/
structure PGPKey where
  Fingerprint : String
  URL : Option String
deriving Repr, DecidableEq

/-- models.go `Publisher`. -/
structure Publisher where
  Category : Option String
  Name : Option String
  Namespace : Option String
  ContactDetails : String
  IssuingAuthority : String
deriving Repr, DecidableEq

/-- models.go `ProviderMetadata`. -/
structure ProviderMetadata where
  CanonicalURL : Option String
  Distributions : List Distribution
  LastUpdated : Option TimeStamp
  ListOnCSAFAggregators : Option Bool
  MetadataVersion : Option String
  MirrorOnCSAFAggregators : Option Bool
  PGPKeys : List PGPKey
  Publisher : Option Publisher
  Role : Option String
deriving Repr, DecidableEq

/-! ### Defaults (models.go lines 238-256) -/

/-- `ProviderMetadata.Defaults`: fills role, the two aggregator flags and
the metadata version when they are nil; never overwrites a present value. -/
def ProviderMetadata.Defaults (pmd : ProviderMetadata) : ProviderMetadata :=
  let p1 := if pmd.Role.isNone then { pmd with Role := some "csaf_provider" } else pmd
  let p2 := if p1.ListOnCSAFAggregators.isNone then
      { p1 with ListOnCSAFAggregators := some true } else p1
  let p3 := if p2.MirrorOnCSAFAggregators.isNone then
      { p2 with MirrorOnCSAFAggregators := some true } else p2
  if p3.MetadataVersion.isNone then { p3 with MetadataVersion := some "2.0" } else p3

/-! ### Validation (models.go lines 258-350) -/

/-- `Feed.Validate` (models.go lines 260-268). -/
def Feed.Validate (f : Feed) : Option String :=
  if f.TLPLabel.isNone then some "feed[].tlp_label is mandatory"
  else if f.URL.isNone then some "feed[].url is mandatory"
  else none

/-- `ROLIE.Validate` (models.go lines 272-282): at least one feed, then the
first failing feed error, if any. -/
def ROLIE.Validate (r : ROLIE) : Option String :=
  if r.Feeds.length < 1 then some "ROLIE needs at least one feed"
  else r.Feeds.findSome? Feed.Validate

/-- `Publisher.Validate` (models.go lines 286-298); the receiver is a Go
pointer, checked against nil first. -/
def Publisher.Validate : Option Publisher → Option String
  | none => some "publisher is mandatory"
  | some cp =>
    if cp.Category.isNone then some "publisher.category is mandatory"
    else if cp.Name.isNone then some "publisher.name is mandatory"
    else if cp.Namespace.isNone then some "publisher.namespace is mandatory"
    else none

/-- `PGPKey.Validate` (models.go lines 302-307). -/
def PGPKey.Validate (pk : PGPKey) : Option String :=
  if pk.URL.isNone then some "pgp_key[].url is mandatory" else none

/-- `Distribution.Validate` (models.go lines 311-318), translated exactly as
written: when `Rolie[i].Validate()` yields an error the Go function executes
`return nil` — the error value is dropped — and it also returns nil after the
loop, although its documentation says it reports validation failures. -/
def Distribution.Validate (d : Distribution) : Option String :=
  match d.Rolie.findSome? ROLIE.Validate with
  | some _ => none
  | none => none

/-- `ProviderMetadata.Validate` (models.go lines 322-350): required-field
checks, then publisher, then the first failing PGP key, then the first
failing distribution. -/
def ProviderMetadata.Validate (pmd : ProviderMetadata) : Option String :=
  if pmd.CanonicalURL.isNone then some "canonical_url is mandatory"
  else if pmd.LastUpdated.isNone then some "last_updated is mandatory"
  else if pmd.MetadataVersion.isNone then some "metadata_version is mandatory"
  else
    match Publisher.Validate pmd.Publisher with
    | some e => some e
    | none =>
      match pmd.PGPKeys.findSome? PGPKey.Validate with
      | some e => some e
      | none =>
        match pmd.Distributions.findSome? Distribution.Validate with
        | some e => some e
        | none => none

/-! ### SetPGP (models.go lines 362-373) -/

/-- The loop body of `ProviderMetadata.SetPGP` over the key slice: update the
URL of the first key with the given fingerprint in place, or append a new
key when no fingerprint matches. -/
def setPGPKeys : List PGPKey → String → String → List PGPKey
  | [], fingerprint, url => [⟨fingerprint, some url⟩]
  | k :: ks, fingerprint, url =>
    if k.Fingerprint == fingerprint then { k with URL := some url } :: ks
    else k :: setPGPKeys ks fingerprint url

/-- `ProviderMetadata.SetPGP`. -/
def ProviderMetadata.SetPGP (pmd : ProviderMetadata) (fingerprint url : String) :
    ProviderMetadata :=
  { pmd with PGPKeys := setPGPKeys pmd.PGPKeys fingerprint url }

/-! ### JSON values

`encoding/json` is embedded at the level of JSON values: Go's encoder and
parser compose to the identity on values (the two-space indentation set by
`Save` is whitespace only), so serialization is a function into `Json` and
deserialization a function out of it. Object fields keep the order the
encoder emits; the decoder reads a duplicated key last-wins, as the
streaming Go decoder does. -/

inductive Json where
  | null
  | bool (b : Bool)
  | num (n : Int)
  | str (s : String)
  | arr (elems : List Json)
  | obj (fields : List (String × Json))
deriving Repr

/-! ### Encoding (`json.Marshal` on the model types, following the struct tags) -/

/-- A nil Go pointer to a string-like value encodes as `null`. -/
def encOptStr : Option String → Json
  | none => .null
  | some s => .str s

def encOptBool : Option Bool → Json
  | none => .null
  | some b => .bool b

def encOptTS : Option TimeStamp → Json
  | none => .null
  | some t => .str (tsMarshal t)

/-- An `omitempty` field: present only when the emptiness test fails. -/
def optField (present : Bool) (key : String) (v : Json) : List (String × Json) :=
  if present then [(key, v)] else []

def encodeFeed (f : Feed) : Json :=
  .obj [("summary", .str f.Summary), ("tlp_label", encOptStr f.TLPLabel),
        ("url", encOptStr f.URL)]

def encodeROLIE (r : ROLIE) : Json :=
  .obj (optField (!r.Categories.isEmpty) "categories" (.arr (r.Categories.map .str)) ++
        [("feeds", .arr (r.Feeds.map encodeFeed))] ++
        optField (!r.Services.isEmpty) "services" (.arr (r.Services.map .str)))

def encodeDistribution (d : Distribution) : Json :=
  .obj (optField (d.DirectoryURL != "") "directory_url" (.str d.DirectoryURL) ++
        [("rolie", .arr (d.Rolie.map encodeROLIE))])

def encodePGPKey (k : PGPKey) : Json :=
  .obj (optField (k.Fingerprint != "") "fingerprint" (.str k.Fingerprint) ++
        [("url", encOptStr k.URL)])

def encodePublisher (p : Publisher) : Json :=
  .obj ([("category", encOptStr p.Category), ("name", encOptStr p.Name),
         ("namespace", encOptStr p.Namespace)] ++
        optField (p.ContactDetails != "") "contact_details" (.str p.ContactDetails) ++
        optField (p.IssuingAuthority != "") "issuing_authority" (.str p.IssuingAuthority))

def encOptPublisher : Option Publisher → Json
  | none => .null
  | some p => encodePublisher p

def encodeProviderMetadata (pmd : ProviderMetadata) : Json :=
  .obj ([("canonical_url", encOptStr pmd.CanonicalURL)] ++
        optField (!pmd.Distributions.isEmpty) "distributions"
          (.arr (pmd.Distributions.map encodeDistribution)) ++
        [("last_updated", encOptTS pmd.LastUpdated),
         ("list_on_CSAF_aggregators", encOptBool pmd.ListOnCSAFAggregators),
         ("metadata_version", encOptStr pmd.MetadataVersion),
         ("mirror_on_CSAF_aggregators", encOptBool pmd.MirrorOnCSAFAggregators)] ++
        optField (!pmd.PGPKeys.isEmpty) "pgp_keys" (.arr (pmd.PGPKeys.map encodePGPKey)) ++
        [("publisher", encOptPublisher pmd.Publisher),
         ("role", encOptStr pmd.Role)])

/-- `ProviderMetadata.Save` (models.go lines 388-392): a `json.Encoder` with
two-space indentation; at the value level this is the encoding itself. -/
def ProviderMetadata.Save (pmd : ProviderMetadata) : Json :=
  encodeProviderMetadata pmd

/-! ### Decoding (`json.Decoder.Decode` into `ProviderMetadata`)

Go decodes permissively: an absent field keeps the zero value, `null` keeps
the zero value (nil for pointers and slices, `""` for strings), a present
string runs the field type's `UnmarshalText` — which is where the patterns
and allow-lists of models.go lines 29-140 are enforced — and a value of the
wrong JSON kind is an error. -/

/-- The value of the last occurrence of `key`, as the streaming decoder
leaves the last assignment in place. -/
def getField (fields : List (String × Json)) (key : String) : Option Json :=
  ((fields.filter (fun kv => kv.1 == key)).getLast?).map (fun kv => kv.2)

def decField {α : Type} (fields : List (String × Json)) (key : String)
    (dec : Json → Except String α) (dflt : α) : Except String α :=
  match getField fields key with
  | none => .ok dflt
  | some v => dec v

/-- A string-typed pointer field whose type carries an `UnmarshalText`
pattern or allow-list check. -/
def decPattern (check : String → Bool) (what : String) : Json → Except String (Option String)
  | .null => .ok none
  | .str s => if check s then .ok (some s) else .error (s ++ " does not match " ++ what)
  | _ => .error ("cannot unmarshal into " ++ what)

/-- A plain (non-pointer) string field without checks. -/
def decPlainString : Json → Except String String
  | .null => .ok ""
  | .str s => .ok s
  | _ => .error "cannot unmarshal into string"

/-- A `*string` field without checks. -/
def decOptPlainString : Json → Except String (Option String)
  | .null => .ok none
  | .str s => .ok (some s)
  | _ => .error "cannot unmarshal into string pointer"

def decOptBool : Json → Except String (Option Bool)
  | .null => .ok none
  | .bool b => .ok (some b)
  | _ => .error "cannot unmarshal into bool pointer"

def decOptTS : Json → Except String (Option TimeStamp)
  | .null => .ok none
  | .str s => (tsParse s).map some
  | _ => .error "cannot unmarshal into TimeStamp"

/-- A non-pointer `Fingerprint` field: `UnmarshalText` runs on any present
string, including the empty one. -/
def decFingerprint : Json → Except String String
  | .null => .ok ""
  | .str s =>
    if matchesFingerprint s then .ok s
    else .error (s ++ " does not match the fingerprint pattern")
  | _ => .error "cannot unmarshal into Fingerprint"

/-- A non-pointer `JSONURL` list element. -/
def decJSONURLElem : Json → Except String String
  | .null => .ok ""
  | .str s =>
    if matchesJSONURL s then .ok s
    else .error (s ++ " does not match the JSON URL pattern")
  | _ => .error "cannot unmarshal into JSONURL"

def decodeList {α : Type} (dec : Json → Except String α) : Json → Except String (List α)
  | .null => .ok []
  | .arr xs => xs.mapM dec
  | _ => .error "cannot unmarshal into slice"

def decodeFeed : Json → Except String Feed
  | .null => .ok ⟨"", none, none⟩
  | .obj fs => do
    let summary ← decField fs "summary" decPlainString ""
    let tlp ← decField fs "tlp_label"
      (decPattern tlpLabelOK "the TLP label alternatives") none
    let url ← decField fs "url" (decPattern matchesJSONURL "the JSON URL pattern") none
    .ok ⟨summary, tlp, url⟩
  | _ => .error "cannot unmarshal into Feed"

def decodeROLIE : Json → Except String ROLIE
  | .null => .ok ⟨[], [], []⟩
  | .obj fs => do
    let cats ← decField fs "categories" (decodeList decJSONURLElem) []
    let feeds ← decField fs "feeds" (decodeList decodeFeed) []
    let svcs ← decField fs "services" (decodeList decJSONURLElem) []
    .ok ⟨cats, feeds, svcs⟩
  | _ => .error "cannot unmarshal into ROLIE"

def decodeDistribution : Json → Except String Distribution
  | .null => .ok ⟨"", []⟩
  | .obj fs => do
    let du ← decField fs "directory_url" decPlainString ""
    let rolie ← decField fs "rolie" (decodeList decodeROLIE) []
    .ok ⟨du, rolie⟩
  | _ => .error "cannot unmarshal into Distribution"

def decodePGPKey : Json → Except String PGPKey
  | .null => .ok ⟨"", none⟩
  | .obj fs => do
    let fp ← decField fs "fingerprint" decFingerprint ""
    let url ← decField fs "url" decOptPlainString none
    .ok ⟨fp, url⟩
  | _ => .error "cannot unmarshal into PGPKey"

def decOptPublisher : Json → Except String (Option Publisher)
  | .null => .ok none
  | .obj fs => do
    let cat ← decField fs "category"
      (decPattern csafCategoryOK "the category alternatives") none
    let name ← decField fs "name" decOptPlainString none
    let ns ← decField fs "namespace" decOptPlainString none
    let cd ← decField fs "contact_details" decPlainString ""
    let ia ← decField fs "issuing_authority" decPlainString ""
    .ok (some ⟨cat, name, ns, cd, ia⟩)
  | _ => .error "cannot unmarshal into Publisher"

def decodeProviderMetadata : Json → Except String ProviderMetadata
  | .null => .ok ⟨none, [], none, none, none, none, [], none, none⟩
  | .obj fs => do
    let cu ← decField fs "canonical_url"
      (decPattern matchesProviderURL "the provider URL pattern") none
    let dists ← decField fs "distributions" (decodeList decodeDistribution) []
    let lu ← decField fs "last_updated" decOptTS none
    let lo ← decField fs "list_on_CSAF_aggregators" decOptBool none
    let mv ← decField fs "metadata_version"
      (decPattern metadataVersionOK "the metadata version alternatives") none
    let mo ← decField fs "mirror_on_CSAF_aggregators" decOptBool none
    let pks ← decField fs "pgp_keys" (decodeList decodePGPKey) []
    let pub ← decField fs "publisher" decOptPublisher none
    let role ← decField fs "role"
      (decPattern metadataRoleOK "the metadata role alternatives") none
    .ok ⟨cu, dists, lu, lo, mv, mo, pks, pub, role⟩
  | _ => .error "cannot unmarshal into ProviderMetadata"

/-- `LoadProviderMetadata` (models.go lines 395-411): decode, validate,
apply defaults. -/
def LoadProviderMetadata (j : Json) : Except String ProviderMetadata := do
  let pmd ← decodeProviderMetadata j
  match pmd.Validate with
  | some e => .error e
  | none => .ok pmd.Defaults

/-! ### Round-trip side conditions

`ProviderMetadata.Validate` does not check the patterns that the decoder
enforces (they live in the `UnmarshalText` methods), and `time.RFC3339`
drops fractional seconds, so a document survives `Save` followed by the
decoder exactly when the following decidable conditions hold. -/

def optCheck (check : String → Bool) : Option String → Bool
  | none => true
  | some s => check s

/-- The stored timestamp survives RFC3339 format-then-parse (equivalently:
it has no fractional-second part). -/
def tsRT : Option TimeStamp → Bool
  | none => true
  | some t =>
    match tsParse (tsMarshal t) with
    | .ok u => decide (u = t)
    | .error _ => false

def feedRT (f : Feed) : Bool :=
  optCheck tlpLabelOK f.TLPLabel && optCheck matchesJSONURL f.URL

def rolieRT (r : ROLIE) : Bool :=
  r.Categories.all matchesJSONURL && r.Feeds.all feedRT &&
  r.Services.all matchesJSONURL

def distRT (d : Distribution) : Bool := d.Rolie.all rolieRT

def pgpRT (k : PGPKey) : Bool :=
  (k.Fingerprint == "") || matchesFingerprint k.Fingerprint

def publisherRT : Option Publisher → Bool
  | none => true
  | some p => optCheck csafCategoryOK p.Category

/-- All decode-time side conditions of a round trip. -/
def pmdRT (pmd : ProviderMetadata) : Bool :=
  optCheck matchesProviderURL pmd.CanonicalURL &&
  pmd.Distributions.all distRT &&
  tsRT pmd.LastUpdated &&
  optCheck metadataVersionOK pmd.MetadataVersion &&
  pmd.PGPKeys.all pgpRT &&
  publisherRT pmd.Publisher &&
  optCheck metadataRoleOK pmd.Role

end Csaf

/-! ## Embedding of cmd/csaf_aggregator/processor.go -/

namespace Aggregator

open Csaf (Json)

/-- A Go `error` value as the aggregator distinguishes them: the sentinel
`errNotFound` versus any other error, carried with its message. -/
inductive GoErr where
  | notFound
  | msg (e : String)
deriving Repr, DecidableEq

/-- The four well-known candidate paths, processor.go lines 86-91. -/
def providerMetadataLocations : List String :=
  [".well-known/csaf", "security/data/csaf", "advisories/csaf", "security/csaf"]

/-- `httpsDomain` (processor.go lines 79-84). -/
def httpsDomain (domain : String) : String :=
  if Csaf.strStartsWith domain "https://" then domain else "https://" ++ domain

/-- The body of an HTTP response, as the fetch helper sees it: empty, or
content whose JSON parse either fails or yields a value. -/
inductive BodyContent where
  | empty
  | content (parsed : Except String Json)

/-- Outcome of a GET, before any classification. -/
inductive HTTPResponse where
  | transportError (e : String)
  | response (status : Nat) (body : BodyContent)

/-- The `.well-known/security.txt` GET (`w.client.Get`): a transport error,
or a status code with the text body, given as its lines. -/
inductive SecResponse where
  | transportError (e : String)
  | response (status : Nat) (lines : List String)

/-- The network as the worker sees it: every URL that `downloadJSON` may
target has a fixed response, and security.txt has one. -/
structure Env where
  fetch : String → HTTPResponse
  secGet : SecResponse

/-- Targets the resolver contacts, in order, for the discovery trace. -/
inductive Target where
  | wellKnown (loc : String)
  | securityTxt
  | direct (url : String)
deriving Repr, DecidableEq

/-- Assignment of a decoded JSON value to `w.metadataProvider`
(an `interface{}`): decoding the JSON value `null` leaves the interface nil. -/
def jsonAssign : Json → Option Json
  | .null => none
  | v => some v

/-- Modelled from the spec: `downloadJSON` (the HTTP fetch helper, §4.2) is
not under src/. Per the spec, a non-success status or an empty body is
reported as `errNotFound`, a transport error is a hard error, and otherwise
the consumer runs on the body. Here it is specialized to the `download`
closure of `locateProviderMetadata` (processor.go lines 97-103), which
decodes the body into `w.metadataProvider` and maps a JSON decode error —
after logging it — to `errNotFound`. The result is the returned error (if
any) paired with the new `w.metadataProvider`. -/
def downloadStep (resp : HTTPResponse) (mp : Option Json) : Option GoErr × Option Json :=
  match resp with
  | .transportError e => (some (.msg e), mp)
  | .response status body =>
    if status != 200 then (some .notFound, mp)
    else
      match body with
      | .empty => (some .notFound, mp)
      | .content (.error _) => (some .notFound, mp)
      | .content (.ok v) => (none, jsonAssign v)

/-- Classification of a response as the probing loop experiences it. -/
inductive FetchClass where
  | notFound
  | hard (e : String)
  | okNull
  | okVal (v : Json)

def classify : HTTPResponse → FetchClass
  | .transportError e => .hard e
  | .response status body =>
    if status != 200 then .notFound
    else
      match body with
      | .empty => .notFound
      | .content (.error _) => .notFound
      | .content (.ok .null) => .okNull
      | .content (.ok v) => .okVal v

/-- Result of the well-known probing loop (processor.go lines 106-118),
together with the targets it contacted. -/
inductive LoopOut where
  | found (loc : String) (mp : Option Json) (trace : List Target)
  | exhausted (mp : Option Json) (trace : List Target)
  | aborted (e : GoErr) (mp : Option Json) (trace : List Target)

def LoopOut.consTrace (t : Target) : LoopOut → LoopOut
  | .found loc mp tr => .found loc mp (t :: tr)
  | .exhausted mp tr => .exhausted mp (t :: tr)
  | .aborted e mp tr => .aborted e mp (t :: tr)

def LoopOut.trace : LoopOut → List Target
  | .found _ _ tr => tr
  | .exhausted _ tr => tr
  | .aborted _ _ tr => tr

/-- The `for _, loc := range providerMetadataLocations` loop: `errNotFound`
continues with the next candidate, any other error aborts, and a fetch that
leaves `w.metadataProvider` nil (a body decoding to JSON `null`) also
continues. -/
def wkLoop (env : Env) (hd : String) : List String → Option Json → LoopOut
  | [], mp => .exhausted mp []
  | loc :: rest, mp =>
    match downloadStep (env.fetch (hd ++ "/" ++ loc)) mp with
    | (some .notFound, mp2) => (wkLoop env hd rest mp2).consTrace (.wellKnown loc)
    | (some (.msg e), mp2) => .aborted (.msg e) mp2 [.wellKnown loc]
    | (none, mp2) =>
      if mp2.isSome then .found loc mp2 [.wellKnown loc]
      else (wkLoop env hd rest mp2).consTrace (.wellKnown loc)

/-- Modelled from the spec: `csaf.ExtractProviderURL` is not under src/.
Per §6, the resolver "extracts CSAF: field values as candidate URLs; only
exact-form lines are honored" (the call passes `relaxed = false`; the
relaxed mode is never used by the code under src/ and is not modelled).
The body is given as its lines; read errors of the body are not modelled. -/
def ExtractProviderURL (lines : List String) (_relaxed : Bool) : List String :=
  lines.filterMap (fun l =>
    if Csaf.strStartsWith l "CSAF: " then some (Csaf.strDrop l 6) else none)

/-- The final state of `locateProviderMetadata`: the returned error (none on
success), `w.loc`, `w.metadataProvider`, and the contacted targets. -/
structure LocateResult where
  err : Option GoErr
  loc : String
  metadataProvider : Option Json
  trace : List Target

/-- `locateProviderMetadata` (processor.go lines 93-148): probe the four
well-known paths; on exhaustion read security.txt, extract candidate URLs,
fail with an explicit error when none is found, otherwise fetch the first
candidate as the final document. -/
def locateProviderMetadata (env : Env) (domain : String) : LocateResult :=
  let hd := httpsDomain domain
  match wkLoop env hd providerMetadataLocations none with
  | .found loc mp tr => ⟨none, loc, mp, tr⟩
  | .aborted e mp tr => ⟨some e, "", mp, tr⟩
  | .exhausted mp tr =>
    match env.secGet with
    | .transportError e => ⟨some (.msg e), "", mp, tr ++ [.securityTxt]⟩
    | .response status lines =>
      if status != 200 then ⟨some .notFound, "", mp, tr ++ [.securityTxt]⟩
      else
        match ExtractProviderURL lines false with
        | [] => ⟨some (.msg "no provider-metadata.json found in secturity.txt"), "",
                 mp, tr ++ [.securityTxt]⟩
        | u :: _ =>
          let step := downloadStep (env.fetch u) mp
          ⟨step.1, u, step.2, tr ++ [.securityTxt, .direct u]⟩

/-! ### Orphan removal (processor.go lines 151-234)

The sweep is embedded as the action it takes per published directory entry,
over an abstract view of the filesystem: paths are lists of components (as
cleaned absolute paths, the form `filepath.EvalSymlinks` returns), and each
entry records what the relevant system calls would answer. Removal
operations themselves are assumed to succeed (a failing `os.Remove` is
logged and only skips the target removal). -/

/-- One entry of the published `.well-known/csaf-aggregator` folder.
`info` is `none` when `entry.Info()` fails, otherwise whether the mode has
the symlink bit; `resolved` is `none` when `filepath.EvalSymlinks` fails
(for example a dangling link); `targetIsDir` is `none` when `os.Stat` on
the resolved target fails. -/
structure DirEntry where
  name : String
  info : Option Bool
  resolved : Option (List String)
  targetIsDir : Option Bool

/-- What the sweep does to one entry. -/
inductive SweepAction where
  | untouched
  | removeLinkOnly
  | removeLinkAndTarget
deriving Repr, DecidableEq

/-- `filepath.Rel(prefix, r) == filepath.Base(r)` for cleaned absolute
paths: the relative path from the working folder to the target equals the
target's own final component exactly when the target sits directly inside
the working folder. -/
def directlyInside (pre target : List String) : Bool :=
  (target.length == pre.length + 1) && (target.take pre.length == pre)

/-- The body of the entry loop of `removeOrphans`: names in the keep set are
skipped; only symlinks are touched; the link target must resolve and be a
directory; then the link is removed, and the target directory tree too when
it lies directly inside the working folder `pre`. -/
def sweepEntry (keep : String → Bool) (pre : List String) (e : DirEntry) : SweepAction :=
  if keep e.name then .untouched
  else
    match e.info with
    | none => .untouched
    | some isLink =>
      if !isLink then .untouched
      else
        match e.resolved with
        | none => .untouched
        | some r =>
          match e.targetIsDir with
          | none => .untouched
          | some isDir =>
            if !isDir then .untouched
            else if directlyInside pre r then .removeLinkAndTarget
            else .removeLinkOnly

/-- `removeOrphans`: the keep set is the configured provider names; every
entry of the published folder is swept. -/
def removeOrphans (providers : List String) (pre : List String)
    (entries : List DirEntry) : List (String × SweepAction) :=
  entries.map (fun e => (e.name, sweepEntry (fun n => providers.contains n) pre e))

end Aggregator

/-! ## Concrete inputs used by witnesses and counterexamples -/

namespace Examples

open Csaf Aggregator

/-- A publisher passing every check. -/
def publisherOK : Publisher :=
  { Category := some "vendor", Name := some "ACME", Namespace := some "https://example.com",
    ContactDetails := "", IssuingAuthority := "" }

/-- A ROLIE block with zero feeds — invalid per `ROLIE.Validate`. -/
def emptyROLIE : ROLIE := { Categories := [], Feeds := [], Services := [] }

/-- A distribution carrying the invalid ROLIE block. -/
def distEmptyROLIE : Distribution := { DirectoryURL := "", Rolie := [emptyROLIE] }

/-- A document whose only flaw is a ROLIE block with zero feeds. -/
def pmdEmptyROLIEFeeds : ProviderMetadata :=
  { CanonicalURL := some "https://example.com/.well-known/csaf/provider-metadata.json",
    Distributions := [distEmptyROLIE],
    LastUpdated := some ⟨0, 0⟩,
    ListOnCSAFAggregators := none,
    MetadataVersion := some "2.0",
    MirrorOnCSAFAggregators := none,
    PGPKeys := [],
    Publisher := some publisherOK,
    Role := none }

/-- A document that passes `Validate` although its canonical URL does not
end in `/provider-metadata.json`. -/
def pmdBadCanonical : ProviderMetadata :=
  { CanonicalURL := some "https://example.com/metadata.json",
    Distributions := [],
    LastUpdated := some ⟨0, 0⟩,
    ListOnCSAFAggregators := none,
    MetadataVersion := some "2.0",
    MirrorOnCSAFAggregators := none,
    PGPKeys := [],
    Publisher := some publisherOK,
    Role := none }

/-- Same shape with a second non-matching URL, for the C8 counterexample. -/
def pmdBadCanonical2 : ProviderMetadata :=
  { pmdBadCanonical with CanonicalURL := some "https://example.com/x" }

/-- A fully round-trippable document: valid, all patterns matched, no
fractional seconds. -/
def pmdRoundtrip : ProviderMetadata :=
  { CanonicalURL := some "https://example.com/.well-known/csaf/provider-metadata.json",
    Distributions := [
      { DirectoryURL := "https://example.com/advisories/",
        Rolie := [
          { Categories := ["https://example.com/category.json"],
            Feeds := [
              { Summary := "white advisories",
                TLPLabel := some "WHITE",
                URL := some "https://example.com/feed-white.json" }],
            Services := [] }] }],
    LastUpdated := some ⟨1700000000, 0⟩,
    ListOnCSAFAggregators := some true,
    MetadataVersion := some "2.0",
    MirrorOnCSAFAggregators := none,
    PGPKeys := [⟨"0123456789abcdef0123456789abcdef01234567",
                some "https://example.com/key.asc"⟩],
    Publisher := some publisherOK,
    Role := some "csaf_trusted_provider" }

/-- A document without the fingerprint, for the SetPGP witness. -/
def pmdNoKeys : ProviderMetadata :=
  { pmdRoundtrip with PGPKeys := [⟨"ffffffffffffffffffffffffffffffffffffffff",
                                  some "https://example.com/old.asc"⟩] }

/-- A provider-metadata JSON document omitting `role` and both aggregator
flags. -/
def jNoRole : Json :=
  .obj [("canonical_url", .str "https://example.com/provider-metadata.json"),
        ("last_updated", .str "0"),
        ("metadata_version", .str "2.0"),
        ("publisher", .obj [("category", .str "vendor"), ("name", .str "ACME"),
                            ("namespace", .str "https://example.com")])]

/-- The document `LoadProviderMetadata` produces from `jNoRole`. -/
def pmdNoRoleLoaded : ProviderMetadata :=
  { CanonicalURL := some "https://example.com/provider-metadata.json",
    Distributions := [],
    LastUpdated := some ⟨0, 0⟩,
    ListOnCSAFAggregators := some true,
    MetadataVersion := some "2.0",
    MirrorOnCSAFAggregators := some true,
    PGPKeys := [],
    Publisher := some publisherOK,
    Role := some "csaf_provider" }

/-- A fetch table defaulting to a plain 404. -/
def mkFetch (tbl : List (String × HTTPResponse)) : String → HTTPResponse := fun u =>
  match tbl.find? (fun kv => kv.1 == u) with
  | some kv => kv.2
  | none => .response 404 .empty

/-- Discovery environment where only well-known path #3 succeeds. -/
def envPath3 : Env :=
  { fetch := mkFetch [("https://example.com/advisories/csaf",
      .response 200 (.content (.ok (.obj []))))],
    secGet := .transportError "security.txt must never be contacted" }

/-- Discovery environment where path #1 yields a JSON decode error and
path #2 succeeds. -/
def envDecodeErr : Env :=
  { fetch := mkFetch
      [("https://example.com/.well-known/csaf",
        .response 200 (.content (.error "invalid character at offset 0"))),
       ("https://example.com/security/data/csaf",
        .response 200 (.content (.ok (.obj []))))],
    secGet := .transportError "security.txt must never be contacted" }

/-- Discovery environment where path #1 decodes to JSON `null` and path #2
succeeds. -/
def envNullBody : Env :=
  { fetch := mkFetch
      [("https://example.com/.well-known/csaf", .response 200 (.content (.ok .null))),
       ("https://example.com/security/data/csaf",
        .response 200 (.content (.ok (.str "metadata"))))],
    secGet := .transportError "security.txt must never be contacted" }

/-- Environment where every well-known path misses and security.txt has no
CSAF line. -/
def envNoCSAFLine : Env :=
  { fetch := mkFetch [],
    secGet := .response 200 ["Contact: mailto:security@example.com"] }

/-- Environment where every well-known path misses and security.txt points
at a provider-metadata URL that then succeeds. -/
def envCSAFLine : Env :=
  { fetch := mkFetch [("https://example.com/provider-metadata.json",
      .response 200 (.content (.ok (.obj []))))],
    secGet := .response 200 ["CSAF: https://example.com/provider-metadata.json"] }

/-- The working folder of the aggregator, as a component path. -/
def preFolder : List String := ["data", "aggregator"]

/-- An orphan symlink whose target directory sits directly inside the
working folder. -/
def entryInside : DirEntry :=
  { name := "orphanA", info := some true,
    resolved := some ["data", "aggregator", "orphanA-1"], targetIsDir := some true }

/-- An orphan symlink whose target directory lies outside the working
folder. -/
def entryOutside : DirEntry :=
  { name := "orphanB", info := some true,
    resolved := some ["srv", "elsewhere", "mirror"], targetIsDir := some true }

/-- An orphan regular (non-symlink) entry. -/
def entryRegular : DirEntry :=
  { name := "orphanC", info := some false, resolved := none, targetIsDir := none }

/-- An entry whose name is configured. -/
def entryKept : DirEntry :=
  { name := "alpha", info := some true,
    resolved := some ["data", "aggregator", "alpha-1"], targetIsDir := some true }

def providersCfg : List String := ["alpha", "beta"]

end Examples

/-! ## Theorems -/

set_option maxRecDepth 20000

namespace Csaf

/-! ### SetPGP helper lemmas -/

theorem setPGPKeys_absent (fp url : String) :
    ∀ ks : List PGPKey, ks.any (fun k => k.Fingerprint == fp) = false →
      setPGPKeys ks fp url = ks ++ [⟨fp, some url⟩] := by
  intro ks
  induction ks with
  | nil => intro _; rfl
  | cons k ks ih =>
    intro h
    rw [List.any_cons, Bool.or_eq_false_iff] at h
    simp only [setPGPKeys, h.1, ih h.2]
    simp

theorem setPGPKeys_present_length (fp url : String) :
    ∀ ks : List PGPKey, ks.any (fun k => k.Fingerprint == fp) = true →
      (setPGPKeys ks fp url).length = ks.length := by
  intro ks
  induction ks with
  | nil => intro h; simp at h
  | cons k ks ih =>
    intro h
    rw [List.any_cons] at h
    by_cases hk : (k.Fingerprint == fp) = true
    · simp [setPGPKeys, hk]
    · rw [Bool.not_eq_true] at hk
      rw [hk, Bool.false_or] at h
      simp [setPGPKeys, hk, ih h]

theorem setPGPKeys_present_find (fp url : String) :
    ∀ ks : List PGPKey, ks.any (fun k => k.Fingerprint == fp) = true →
      (setPGPKeys ks fp url).find? (fun k => k.Fingerprint == fp) = some ⟨fp, some url⟩ := by
  intro ks
  induction ks with
  | nil => intro h; simp at h
  | cons k ks ih =>
    intro h
    by_cases hk : k.Fingerprint == fp
    · have hfp : k.Fingerprint = fp := by simpa using hk
      simp [setPGPKeys, hk, List.find?, hfp]
    · rw [List.any_cons] at h
      simp only [hk, Bool.false_or] at h
      simp [setPGPKeys, hk, List.find?, ih h]

theorem setPGPKeys_append_update (fp u1 u2 : String) :
    ∀ ks : List PGPKey, ks.any (fun k => k.Fingerprint == fp) = false →
      setPGPKeys (ks ++ [⟨fp, some u1⟩]) fp u2 = ks ++ [⟨fp, some u2⟩] := by
  intro ks
  induction ks with
  | nil => intro _; simp [setPGPKeys]
  | cons k ks ih =>
    intro h
    rw [List.any_cons, Bool.or_eq_false_iff] at h
    simp [List.cons_append, setPGPKeys, h.1, ih h.2]

theorem countP_eq_zero_of_any_false (fp : String) (ks : List PGPKey)
    (h : ks.any (fun k => k.Fingerprint == fp) = false) :
    ks.countP (fun k => k.Fingerprint == fp) = 0 := by
  induction ks with
  | nil => rfl
  | cons k ks ih =>
    rw [List.any_cons, Bool.or_eq_false_iff] at h
    rw [List.countP_cons]
    simp [h.1, ih h.2]

/-- C7: `SetPGP` is an upsert keyed by fingerprint: with the fingerprint
present it rewrites that entry's URL in place, keeping the number of keys;
with the fingerprint absent it appends one new entry; and two successive
calls with the same absent fingerprint and different URLs leave exactly one
entry with that fingerprint, bearing the second URL. -/
theorem setPGP_upsert (pmd : ProviderMetadata) (fp url u1 u2 : String) :
    (pmd.PGPKeys.any (fun k => k.Fingerprint == fp) = true →
      (pmd.SetPGP fp url).PGPKeys.length = pmd.PGPKeys.length ∧
      (pmd.SetPGP fp url).PGPKeys.find? (fun k => k.Fingerprint == fp) =
        some ⟨fp, some url⟩) ∧
    (pmd.PGPKeys.any (fun k => k.Fingerprint == fp) = false →
      (pmd.SetPGP fp url).PGPKeys = pmd.PGPKeys ++ [⟨fp, some url⟩]) ∧
    (pmd.PGPKeys.any (fun k => k.Fingerprint == fp) = false →
      ((pmd.SetPGP fp u1).SetPGP fp u2).PGPKeys = pmd.PGPKeys ++ [⟨fp, some u2⟩] ∧
      ((pmd.SetPGP fp u1).SetPGP fp u2).PGPKeys.countP
        (fun k => k.Fingerprint == fp) = 1) := by
  refine ⟨fun h => ⟨?_, ?_⟩, fun h => ?_, fun h => ⟨?_, ?_⟩⟩
  · exact setPGPKeys_present_length fp url pmd.PGPKeys h
  · exact setPGPKeys_present_find fp url pmd.PGPKeys h
  · exact setPGPKeys_absent fp url pmd.PGPKeys h
  · show setPGPKeys (setPGPKeys pmd.PGPKeys fp u1) fp u2 = _
    rw [setPGPKeys_absent fp u1 pmd.PGPKeys h]
    exact setPGPKeys_append_update fp u1 u2 pmd.PGPKeys h
  · show (setPGPKeys (setPGPKeys pmd.PGPKeys fp u1) fp u2).countP _ = 1
    rw [setPGPKeys_absent fp u1 pmd.PGPKeys h,
        setPGPKeys_append_update fp u1 u2 pmd.PGPKeys h,
        List.countP_append, countP_eq_zero_of_any_false fp pmd.PGPKeys h]
    simp [List.countP_cons]

/-- Witness for C7 at a concrete document without the fingerprint. -/
theorem setPGP_upsert_witness :
    ((Examples.pmdNoKeys.SetPGP "0123456789abcdef0123456789abcdef01234567"
        "https://example.com/k1.asc").SetPGP
        "0123456789abcdef0123456789abcdef01234567"
        "https://example.com/k2.asc").PGPKeys =
      Examples.pmdNoKeys.PGPKeys ++
        [⟨"0123456789abcdef0123456789abcdef01234567",
          some "https://example.com/k2.asc"⟩] :=
  ((setPGP_upsert Examples.pmdNoKeys "0123456789abcdef0123456789abcdef01234567"
      "unused" "https://example.com/k1.asc" "https://example.com/k2.asc").2.2
    (by decide)).1

/-- C2: `ProviderMetadata.Validate` accepts a document whose only flaw is a
ROLIE block with zero feeds, because `Distribution.Validate` drops the error
it receives from `ROLIE.Validate` (models.go line 314 returns nil in the
error branch), contradicting its own documentation. -/
theorem distribution_validate_drops_rolie_error :
    ROLIE.Validate Examples.emptyROLIE = some "ROLIE needs at least one feed" ∧
    Distribution.Validate Examples.distEmptyROLIE = none ∧
    ProviderMetadata.Validate Examples.pmdEmptyROLIEFeeds = none :=
  ⟨rfl, rfl, rfl⟩

/-- C8 counterexample: a document whose canonical URL is present but does
not end in `/provider-metadata.json` still passes `Validate`. -/
theorem validate_canonical_url_pattern_cex :
    Examples.pmdBadCanonical2.CanonicalURL = some "https://example.com/x" ∧
    matchesProviderURL "https://example.com/x" = false ∧
    ProviderMetadata.Validate Examples.pmdBadCanonical2 = none :=
  ⟨rfl, by decide, rfl⟩

/-- C8 amended: `Validate` checks only the presence of the canonical URL and
never inspects its contents; the `/provider-metadata.json` pattern is
enforced at JSON-decode time, where the `UnmarshalText` check rejects any
non-matching string. -/
theorem validate_checks_presence_not_pattern :
    (∀ s : String, matchesProviderURL s = false →
      decPattern matchesProviderURL "the provider URL pattern" (.str s) =
        .error (s ++ " does not match " ++ "the provider URL pattern")) ∧
    (∀ (pmd : ProviderMetadata) (u v : String),
      ProviderMetadata.Validate { pmd with CanonicalURL := some u } =
      ProviderMetadata.Validate { pmd with CanonicalURL := some v }) := by
  constructor
  · intro s h
    simp [decPattern, h]
  · intro pmd u v
    cases pmd
    simp [ProviderMetadata.Validate]

/-- Witness for C8's amended statement at concrete inputs. -/
theorem validate_checks_presence_not_pattern_witness :
    decPattern matchesProviderURL "the provider URL pattern"
        (.str "https://example.com/x") =
      .error "https://example.com/x does not match the provider URL pattern" :=
  validate_checks_presence_not_pattern.1 "https://example.com/x" (by decide)

end Csaf

namespace Aggregator

/-! ### Orphan removal -/

theorem directlyInside_isPrefix (pre r : List String)
    (h : directlyInside pre r = true) : pre <+: r := by
  unfold directlyInside at h
  rw [Bool.and_eq_true, beq_iff_eq, beq_iff_eq] at h
  rw [List.prefix_iff_eq_take]
  exact h.2.symm

/-- C1: the orphan sweep behaves per entry as claimed: a configured name is
never touched; an unconfigured symlink resolving to a directory directly
inside the working folder loses both the link and the target tree; an
unconfigured symlink resolving to a directory outside the working folder
loses only the link; an unconfigured non-symlink entry is untouched; and
`removeOrphans` applies exactly this sweep to every published entry. -/
theorem removeOrphans_sweep_trichotomy (providers pre : List String) (e : DirEntry) :
    (providers.contains e.name = true →
      sweepEntry (fun n => providers.contains n) pre e = .untouched) ∧
    (providers.contains e.name = false → e.info = some true →
      ∀ r, e.resolved = some r → e.targetIsDir = some true →
        directlyInside pre r = true →
        sweepEntry (fun n => providers.contains n) pre e = .removeLinkAndTarget) ∧
    (providers.contains e.name = false → e.info = some true →
      ∀ r, e.resolved = some r → e.targetIsDir = some true →
        ¬ pre <+: r →
        sweepEntry (fun n => providers.contains n) pre e = .removeLinkOnly) ∧
    (providers.contains e.name = false → e.info = some false →
      sweepEntry (fun n => providers.contains n) pre e = .untouched) ∧
    (∀ entries : List DirEntry, removeOrphans providers pre entries =
      entries.map (fun e2 => (e2.name, sweepEntry (fun n => providers.contains n) pre e2))) := by
  refine ⟨fun hk => ?_, fun hk hl r hr hd hin => ?_, fun hk hl r hr hd hout => ?_,
          fun hk hl => ?_, fun entries => rfl⟩
  · have hk2 : e.name ∈ providers := by simpa using hk
    simp [sweepEntry, hk2]
  · have hk2 : e.name ∉ providers := by simpa using hk
    simp [sweepEntry, hk2, hl, hr, hd, hin]
  · have hk2 : e.name ∉ providers := by simpa using hk
    have hfalse : directlyInside pre r = false := by
      cases hdi : directlyInside pre r
      · rfl
      · exact absurd (directlyInside_isPrefix pre r hdi) hout
    simp [sweepEntry, hk2, hl, hr, hd, hfalse]
  · have hk2 : e.name ∉ providers := by simpa using hk
    simp [sweepEntry, hk2, hl]

/-- Witness for C1 at the four concrete published entries. -/
theorem removeOrphans_sweep_trichotomy_witness :
    sweepEntry (fun n => Examples.providersCfg.contains n) Examples.preFolder
      Examples.entryInside = .removeLinkAndTarget ∧
    sweepEntry (fun n => Examples.providersCfg.contains n) Examples.preFolder
      Examples.entryOutside = .removeLinkOnly ∧
    sweepEntry (fun n => Examples.providersCfg.contains n) Examples.preFolder
      Examples.entryRegular = .untouched ∧
    sweepEntry (fun n => Examples.providersCfg.contains n) Examples.preFolder
      Examples.entryKept = .untouched :=
  ⟨(removeOrphans_sweep_trichotomy Examples.providersCfg Examples.preFolder
      Examples.entryInside).2.1 (by decide) rfl
      ["data", "aggregator", "orphanA-1"] rfl rfl (by decide),
   (removeOrphans_sweep_trichotomy Examples.providersCfg Examples.preFolder
      Examples.entryOutside).2.2.1 (by decide) rfl
      ["srv", "elsewhere", "mirror"] rfl rfl (by decide),
   (removeOrphans_sweep_trichotomy Examples.providersCfg Examples.preFolder
      Examples.entryRegular).2.2.2.1 (by decide) rfl,
   (removeOrphans_sweep_trichotomy Examples.providersCfg Examples.preFolder
      Examples.entryKept).1 (by decide)⟩

/-! ### Discovery: classification lemmas for `downloadStep` -/

theorem downloadStep_of_notFound (r : HTTPResponse) (mp : Option Csaf.Json)
    (h : classify r = .notFound) : downloadStep r mp = (some .notFound, mp) := by
  cases r with
  | transportError e => simp [classify] at h
  | response status body =>
    simp only [classify] at h
    simp only [downloadStep]
    by_cases hs : (status != 200) = true
    · simp [hs]
    · simp only [hs, if_false, Bool.false_eq_true] at h ⊢
      cases body with
      | empty => rfl
      | content p =>
        cases p with
        | error e => rfl
        | ok v => cases v <;> simp_all

theorem downloadStep_of_hard (r : HTTPResponse) (mp : Option Csaf.Json) (e : String)
    (h : classify r = .hard e) : downloadStep r mp = (some (.msg e), mp) := by
  cases r with
  | transportError e2 =>
    simp only [classify, FetchClass.hard.injEq] at h
    subst h; rfl
  | response status body =>
    simp only [classify] at h
    simp only [downloadStep]
    by_cases hs : (status != 200) = true
    · simp [hs] at h
    · simp only [hs, if_false, Bool.false_eq_true] at h ⊢
      cases body with
      | empty => simp at h
      | content p =>
        cases p with
        | error e2 => simp at h
        | ok v => cases v <;> simp_all

theorem downloadStep_of_okVal (r : HTTPResponse) (mp : Option Csaf.Json) (v : Csaf.Json)
    (h : classify r = .okVal v) : downloadStep r mp = (none, some v) := by
  cases r with
  | transportError e => simp [classify] at h
  | response status body =>
    simp only [classify] at h
    simp only [downloadStep]
    by_cases hs : (status != 200) = true
    · simp [hs] at h
    · simp only [hs, if_false, Bool.false_eq_true] at h ⊢
      cases body with
      | empty => simp at h
      | content p =>
        cases p with
        | error e2 => simp at h
        | ok w => cases w <;> simp_all [jsonAssign]

theorem downloadStep_of_okNull (r : HTTPResponse) (mp : Option Csaf.Json)
    (h : classify r = .okNull) : downloadStep r mp = (none, none) := by
  cases r with
  | transportError e => simp [classify] at h
  | response status body =>
    simp only [classify] at h
    simp only [downloadStep]
    by_cases hs : (status != 200) = true
    · simp [hs] at h
    · simp only [hs, if_false, Bool.false_eq_true] at h ⊢
      cases body with
      | empty => simp at h
      | content p =>
        cases p with
        | error e2 => simp at h
        | ok w => cases w <;> simp_all [jsonAssign]

/-! ### Discovery: one-step unfoldings of the probing loop -/

theorem wkLoop_cons_of_notFound (env : Env) (hd loc : String) (rest : List String)
    (mp : Option Csaf.Json) (h : classify (env.fetch (hd ++ "/" ++ loc)) = .notFound) :
    wkLoop env hd (loc :: rest) mp = (wkLoop env hd rest mp).consTrace (.wellKnown loc) := by
  simp [wkLoop, downloadStep_of_notFound _ mp h]

theorem wkLoop_cons_of_hard (env : Env) (hd loc : String) (rest : List String)
    (mp : Option Csaf.Json) (e : String)
    (h : classify (env.fetch (hd ++ "/" ++ loc)) = .hard e) :
    wkLoop env hd (loc :: rest) mp = .aborted (.msg e) mp [.wellKnown loc] := by
  simp [wkLoop, downloadStep_of_hard _ mp e h]

theorem wkLoop_cons_of_okVal (env : Env) (hd loc : String) (rest : List String)
    (mp : Option Csaf.Json) (v : Csaf.Json)
    (h : classify (env.fetch (hd ++ "/" ++ loc)) = .okVal v) :
    wkLoop env hd (loc :: rest) mp = .found loc (some v) [.wellKnown loc] := by
  simp [wkLoop, downloadStep_of_okVal _ mp v h]

theorem wkLoop_cons_of_okNull (env : Env) (hd loc : String) (rest : List String)
    (mp : Option Csaf.Json) (h : classify (env.fetch (hd ++ "/" ++ loc)) = .okNull) :
    wkLoop env hd (loc :: rest) mp = (wkLoop env hd rest none).consTrace (.wellKnown loc) := by
  simp [wkLoop, downloadStep_of_okNull _ mp h]

/-! ### Discovery: shape of the contacted-target trace -/

/-- The probing loop contacts an initial segment of its candidate list, in
order: on exhaustion the trace is the whole list, otherwise it is a proper
initial segment ending at the stopping candidate. -/
theorem wkLoop_shape (env : Env) (hd : String) :
    ∀ (locs : List String) (mp : Option Csaf.Json),
      (∀ m tr, wkLoop env hd locs mp = .exhausted m tr →
        tr = locs.map Target.wellKnown) ∧
      (∀ l m tr, wkLoop env hd locs mp = .found l m tr →
        ∃ n, n < locs.length ∧ tr = (locs.take (n + 1)).map Target.wellKnown) ∧
      (∀ er m tr, wkLoop env hd locs mp = .aborted er m tr →
        ∃ n, n < locs.length ∧ tr = (locs.take (n + 1)).map Target.wellKnown) := by
  intro locs
  induction locs with
  | nil =>
    intro mp
    refine ⟨fun m tr h => ?_, fun l m tr h => ?_, fun er m tr h => ?_⟩ <;>
      simp [wkLoop] at h
    · simp [h.2]
  | cons loc rest ih =>
    intro mp
    rcases hds : downloadStep (env.fetch (hd ++ "/" ++ loc)) mp with ⟨oe, mp2⟩
    have cont : ∀ mp3 : Option Csaf.Json,
        wkLoop env hd (loc :: rest) mp = (wkLoop env hd rest mp3).consTrace (.wellKnown loc) →
        (∀ m tr, wkLoop env hd (loc :: rest) mp = .exhausted m tr →
          tr = (loc :: rest).map Target.wellKnown) ∧
        (∀ l m tr, wkLoop env hd (loc :: rest) mp = .found l m tr →
          ∃ n, n < (loc :: rest).length ∧
            tr = ((loc :: rest).take (n + 1)).map Target.wellKnown) ∧
        (∀ er m tr, wkLoop env hd (loc :: rest) mp = .aborted er m tr →
          ∃ n, n < (loc :: rest).length ∧
            tr = ((loc :: rest).take (n + 1)).map Target.wellKnown) := by
      intro mp3 heq
      refine ⟨fun m tr h => ?_, fun l m tr h => ?_, fun er m tr h => ?_⟩ <;>
        rw [heq] at h
      · rcases hrec : wkLoop env hd rest mp3 with ⟨l2, m2, tr2⟩ | ⟨m2, tr2⟩ | ⟨e2, m2, tr2⟩ <;>
          rw [hrec] at h <;> simp [LoopOut.consTrace] at h
        have := ((ih mp3).1) m2 tr2 hrec
        simp [← h.2, this]
      · rcases hrec : wkLoop env hd rest mp3 with ⟨l2, m2, tr2⟩ | ⟨m2, tr2⟩ | ⟨e2, m2, tr2⟩ <;>
          rw [hrec] at h <;> simp [LoopOut.consTrace] at h
        obtain ⟨n, hn, htr⟩ := ((ih mp3).2.1) l2 m2 tr2 hrec
        refine ⟨n + 1, by simpa using hn, ?_⟩
        simp [← h.2.2, htr]
      · rcases hrec : wkLoop env hd rest mp3 with ⟨l2, m2, tr2⟩ | ⟨m2, tr2⟩ | ⟨e2, m2, tr2⟩ <;>
          rw [hrec] at h <;> simp [LoopOut.consTrace] at h
        obtain ⟨n, hn, htr⟩ := ((ih mp3).2.2) e2 m2 tr2 hrec
        refine ⟨n + 1, by simpa using hn, ?_⟩
        simp [← h.2.2, htr]
    rcases oe with _ | ge
    · by_cases hmp : mp2.isSome = true
      · have step : wkLoop env hd (loc :: rest) mp = .found loc mp2 [.wellKnown loc] := by
          simp only [wkLoop, hds]
          rw [if_pos hmp]
        refine ⟨fun m tr h => ?_, fun l m tr h => ?_, fun er m tr h => ?_⟩ <;>
          rw [step] at h <;> simp at h
        exact ⟨0, by simp, by simp [← h.2.2]⟩
      · have step : wkLoop env hd (loc :: rest) mp =
            (wkLoop env hd rest mp2).consTrace (.wellKnown loc) := by
          simp only [wkLoop, hds]
          rw [if_neg hmp]
        exact cont mp2 step
    · rcases ge with _ | e
      · have step : wkLoop env hd (loc :: rest) mp =
            (wkLoop env hd rest mp2).consTrace (.wellKnown loc) := by
          simp only [wkLoop, hds]
        exact cont mp2 step
      · have step : wkLoop env hd (loc :: rest) mp =
            .aborted (.msg e) mp2 [.wellKnown loc] := by
          simp only [wkLoop, hds]
        refine ⟨fun m tr h => ?_, fun l m tr h => ?_, fun er m tr h => ?_⟩ <;>
          rw [step] at h <;> simp at h
        exact ⟨0, by simp, by simp [← h.2.2]⟩

/-- A value found by the probing loop is never nil. -/
theorem wkLoop_found_isSome (env : Env) (hd : String) :
    ∀ (locs : List String) (mp : Option Csaf.Json) (l : String)
      (m : Option Csaf.Json) (tr : List Target),
      wkLoop env hd locs mp = .found l m tr → m.isSome = true := by
  intro locs
  induction locs with
  | nil => intro mp l m tr h; simp [wkLoop] at h
  | cons loc rest ih =>
    intro mp l m tr h
    rcases hds : downloadStep (env.fetch (hd ++ "/" ++ loc)) mp with ⟨oe, mp2⟩
    have cont : wkLoop env hd (loc :: rest) mp =
        (wkLoop env hd rest mp2).consTrace (.wellKnown loc) → m.isSome = true := by
      intro heq
      rw [heq] at h
      rcases hrec : wkLoop env hd rest mp2 with ⟨l2, m2, tr2⟩ | ⟨m2, tr2⟩ | ⟨e2, m2, tr2⟩ <;>
        rw [hrec] at h <;> simp [LoopOut.consTrace] at h
      rw [← h.2.1]
      exact ih mp2 l2 m2 tr2 hrec
    rcases oe with _ | ge
    · by_cases hmp : mp2.isSome = true
      · have step : wkLoop env hd (loc :: rest) mp = .found loc mp2 [.wellKnown loc] := by
          simp only [wkLoop, hds]
          rw [if_pos hmp]
        rw [step] at h
        simp at h
        rw [← h.2.1]
        exact hmp
      · have step : wkLoop env hd (loc :: rest) mp =
            (wkLoop env hd rest mp2).consTrace (.wellKnown loc) := by
          simp only [wkLoop, hds]
          rw [if_neg hmp]
        exact cont step
    · rcases ge with _ | e
      · have step : wkLoop env hd (loc :: rest) mp =
            (wkLoop env hd rest mp2).consTrace (.wellKnown loc) := by
          simp only [wkLoop, hds]
        exact cont step
      · have step : wkLoop env hd (loc :: rest) mp =
            .aborted (.msg e) mp2 [.wellKnown loc] := by
          simp only [wkLoop, hds]
        rw [step] at h; simp at h

/-- C3: discovery probes the four well-known paths in exactly the fixed
order, continuing past a NotFound, aborting immediately with the error on a
hard failure, and stopping at the first success; the trace of contacted
targets is always an in-order initial segment of the candidate list, with
security.txt contacted only after all four are exhausted. In particular a
provider that only succeeds on path #3 sees paths #1 and #2 attempted first
and security.txt never fetched. -/
theorem locateProviderMetadata_fallback_order :
    (∀ (env : Env) (domain : String),
      (∃ n, n ≤ providerMetadataLocations.length ∧
        (locateProviderMetadata env domain).trace =
          (providerMetadataLocations.take n).map Target.wellKnown) ∨
      (locateProviderMetadata env domain).trace =
        providerMetadataLocations.map Target.wellKnown ++ [Target.securityTxt] ∨
      (∃ u, (locateProviderMetadata env domain).trace =
        providerMetadataLocations.map Target.wellKnown ++
          [Target.securityTxt, Target.direct u])) ∧
    (∀ (env : Env) (domain : String) (v : Csaf.Json),
      classify (env.fetch (httpsDomain domain ++ "/" ++ ".well-known/csaf")) = .notFound →
      classify (env.fetch (httpsDomain domain ++ "/" ++ "security/data/csaf")) = .notFound →
      classify (env.fetch (httpsDomain domain ++ "/" ++ "advisories/csaf")) = .okVal v →
      locateProviderMetadata env domain =
        ⟨none, "advisories/csaf", some v,
         [.wellKnown ".well-known/csaf", .wellKnown "security/data/csaf",
          .wellKnown "advisories/csaf"]⟩) ∧
    (∀ (env : Env) (domain : String) (e : String),
      classify (env.fetch (httpsDomain domain ++ "/" ++ ".well-known/csaf")) = .hard e →
      locateProviderMetadata env domain =
        ⟨some (.msg e), "", none, [.wellKnown ".well-known/csaf"]⟩) ∧
    (∀ (env : Env) (domain : String) (e : String),
      classify (env.fetch (httpsDomain domain ++ "/" ++ ".well-known/csaf")) = .notFound →
      classify (env.fetch (httpsDomain domain ++ "/" ++ "security/data/csaf")) = .hard e →
      locateProviderMetadata env domain =
        ⟨some (.msg e), "", none,
         [.wellKnown ".well-known/csaf", .wellKnown "security/data/csaf"]⟩) ∧
    (∀ (env : Env) (domain : String) (e : String),
      classify (env.fetch (httpsDomain domain ++ "/" ++ ".well-known/csaf")) = .notFound →
      classify (env.fetch (httpsDomain domain ++ "/" ++ "security/data/csaf")) = .notFound →
      classify (env.fetch (httpsDomain domain ++ "/" ++ "advisories/csaf")) = .hard e →
      locateProviderMetadata env domain =
        ⟨some (.msg e), "", none,
         [.wellKnown ".well-known/csaf", .wellKnown "security/data/csaf",
          .wellKnown "advisories/csaf"]⟩) ∧
    (∀ (env : Env) (domain : String) (e : String),
      classify (env.fetch (httpsDomain domain ++ "/" ++ ".well-known/csaf")) = .notFound →
      classify (env.fetch (httpsDomain domain ++ "/" ++ "security/data/csaf")) = .notFound →
      classify (env.fetch (httpsDomain domain ++ "/" ++ "advisories/csaf")) = .notFound →
      classify (env.fetch (httpsDomain domain ++ "/" ++ "security/csaf")) = .hard e →
      locateProviderMetadata env domain =
        ⟨some (.msg e), "", none,
         [.wellKnown ".well-known/csaf", .wellKnown "security/data/csaf",
          .wellKnown "advisories/csaf", .wellKnown "security/csaf"]⟩) := by
  refine ⟨?_, ?_, ?_, ?_, ?_, ?_⟩
  · intro env domain
    rcases hwk : wkLoop env (httpsDomain domain) providerMetadataLocations none with
      ⟨l, m, tr⟩ | ⟨m, tr⟩ | ⟨er, m, tr⟩
    · obtain ⟨n, hn, htr⟩ :=
        ((wkLoop_shape env (httpsDomain domain) providerMetadataLocations none).2.1) l m tr hwk
      exact Or.inl ⟨n + 1, by omega, by simp [locateProviderMetadata, hwk, htr]⟩
    · have htr := ((wkLoop_shape env (httpsDomain domain) providerMetadataLocations none).1)
        m tr hwk
      rcases hsec : env.secGet with e | ⟨status, lines⟩
      · refine Or.inr (Or.inl ?_)
        simp [locateProviderMetadata, hwk, hsec, htr]
      · by_cases hs : (status != 200) = true
        · refine Or.inr (Or.inl ?_)
          simp [locateProviderMetadata, hwk, hsec, hs, htr]
        · rw [Bool.not_eq_true] at hs
          rcases hex : ExtractProviderURL lines false with _ | ⟨u, us⟩
          · refine Or.inr (Or.inl ?_)
            simp [locateProviderMetadata, hwk, hsec, hs, hex, htr]
          · refine Or.inr (Or.inr ⟨u, ?_⟩)
            simp [locateProviderMetadata, hwk, hsec, hs, hex, htr]
    · obtain ⟨n, hn, htr⟩ :=
        ((wkLoop_shape env (httpsDomain domain) providerMetadataLocations none).2.2) er m tr hwk
      exact Or.inl ⟨n + 1, by omega, by simp [locateProviderMetadata, hwk, htr]⟩
  · intro env domain v h1 h2 h3
    have hwk : wkLoop env (httpsDomain domain) providerMetadataLocations none =
        .found "advisories/csaf" (some v)
          [.wellKnown ".well-known/csaf", .wellKnown "security/data/csaf",
           .wellKnown "advisories/csaf"] := by
      simp only [providerMetadataLocations]
      rw [wkLoop_cons_of_notFound _ _ _ _ _ h1, wkLoop_cons_of_notFound _ _ _ _ _ h2,
          wkLoop_cons_of_okVal _ _ _ _ _ _ h3]
      rfl
    simp [locateProviderMetadata, hwk]
  · intro env domain e h1
    have hwk : wkLoop env (httpsDomain domain) providerMetadataLocations none =
        .aborted (.msg e) none [.wellKnown ".well-known/csaf"] := by
      simp only [providerMetadataLocations]
      rw [wkLoop_cons_of_hard _ _ _ _ _ _ h1]
    simp [locateProviderMetadata, hwk]
  · intro env domain e h1 h2
    have hwk : wkLoop env (httpsDomain domain) providerMetadataLocations none =
        .aborted (.msg e) none
          [.wellKnown ".well-known/csaf", .wellKnown "security/data/csaf"] := by
      simp only [providerMetadataLocations]
      rw [wkLoop_cons_of_notFound _ _ _ _ _ h1, wkLoop_cons_of_hard _ _ _ _ _ _ h2]
      rfl
    simp [locateProviderMetadata, hwk]
  · intro env domain e h1 h2 h3
    have hwk : wkLoop env (httpsDomain domain) providerMetadataLocations none =
        .aborted (.msg e) none
          [.wellKnown ".well-known/csaf", .wellKnown "security/data/csaf",
           .wellKnown "advisories/csaf"] := by
      simp only [providerMetadataLocations]
      rw [wkLoop_cons_of_notFound _ _ _ _ _ h1, wkLoop_cons_of_notFound _ _ _ _ _ h2,
          wkLoop_cons_of_hard _ _ _ _ _ _ h3]
      rfl
    simp [locateProviderMetadata, hwk]
  · intro env domain e h1 h2 h3 h4
    have hwk : wkLoop env (httpsDomain domain) providerMetadataLocations none =
        .aborted (.msg e) none
          [.wellKnown ".well-known/csaf", .wellKnown "security/data/csaf",
           .wellKnown "advisories/csaf", .wellKnown "security/csaf"] := by
      simp only [providerMetadataLocations]
      rw [wkLoop_cons_of_notFound _ _ _ _ _ h1, wkLoop_cons_of_notFound _ _ _ _ _ h2,
          wkLoop_cons_of_notFound _ _ _ _ _ h3, wkLoop_cons_of_hard _ _ _ _ _ _ h4]
      rfl
    simp [locateProviderMetadata, hwk]

/-- Witness for C3: the scenario conjunct at a provider succeeding only on
well-known path #3. -/
theorem locateProviderMetadata_fallback_order_witness :
    locateProviderMetadata Examples.envPath3 "example.com" =
      ⟨none, "advisories/csaf", some (.obj []),
       [.wellKnown ".well-known/csaf", .wellKnown "security/data/csaf",
        .wellKnown "advisories/csaf"]⟩ :=
  locateProviderMetadata_fallback_order.2.1 Examples.envPath3 "example.com" (.obj [])
    (by rfl) (by rfl) (by rfl)

/-- C9: a body decoding to JSON `null` leaves `w.metadataProvider` nil, so
the probing loop continues to the next candidate exactly as it does on
NotFound (the same continuation); a candidate is only ever reported found
with a non-nil decoded value, and a discovery that succeeds without touching
security.txt always carries a non-nil metadata value. -/
theorem null_decode_not_success :
    (∀ (env : Env) (hd loc : String) (rest : List String) (mp : Option Csaf.Json),
      classify (env.fetch (hd ++ "/" ++ loc)) = .okNull →
      wkLoop env hd (loc :: rest) mp =
        (wkLoop env hd rest none).consTrace (.wellKnown loc)) ∧
    (∀ (env : Env) (hd loc : String) (rest : List String),
      classify (env.fetch (hd ++ "/" ++ loc)) = .notFound →
      wkLoop env hd (loc :: rest) none =
        (wkLoop env hd rest none).consTrace (.wellKnown loc)) ∧
    (∀ (env : Env) (hd : String) (locs : List String) (mp : Option Csaf.Json)
      (l : String) (m : Option Csaf.Json) (tr : List Target),
      wkLoop env hd locs mp = .found l m tr → m.isSome = true) ∧
    (∀ (env : Env) (domain : String),
      (locateProviderMetadata env domain).err = none →
      Target.securityTxt ∉ (locateProviderMetadata env domain).trace →
      (locateProviderMetadata env domain).metadataProvider.isSome = true) := by
  refine ⟨fun env hd loc rest mp h => wkLoop_cons_of_okNull env hd loc rest mp h,
          fun env hd loc rest h => wkLoop_cons_of_notFound env hd loc rest none h,
          fun env hd locs mp l m tr h => wkLoop_found_isSome env hd locs mp l m tr h,
          fun env domain herr hsec => ?_⟩
  rcases hwk : wkLoop env (httpsDomain domain) providerMetadataLocations none with
    ⟨l, m, tr⟩ | ⟨m, tr⟩ | ⟨er, m, tr⟩
  · have : (locateProviderMetadata env domain).metadataProvider = m := by
      simp [locateProviderMetadata, hwk]
    rw [this]
    exact wkLoop_found_isSome env (httpsDomain domain) providerMetadataLocations none
      l m tr hwk
  · rcases hs : env.secGet with e | ⟨status, lines⟩
    · simp [locateProviderMetadata, hwk, hs] at herr
    · by_cases h200 : (status != 200) = true
      · simp [locateProviderMetadata, hwk, hs, h200] at herr
      · rw [Bool.not_eq_true] at h200
        rcases hex : ExtractProviderURL lines false with _ | ⟨u, us⟩
        · simp [locateProviderMetadata, hwk, hs, h200, hex] at herr
        · refine absurd ?_ hsec
          simp [locateProviderMetadata, hwk, hs, h200, hex]
  · simp [locateProviderMetadata, hwk] at herr

/-- Witness for C9: a null-decoding path #1 makes the loop continue with
path #2 in a concrete environment. -/
theorem null_decode_not_success_witness :
    wkLoop Examples.envNullBody "https://example.com"
      (".well-known/csaf" ::
        ["security/data/csaf", "advisories/csaf", "security/csaf"]) none =
      (wkLoop Examples.envNullBody "https://example.com"
        ["security/data/csaf", "advisories/csaf", "security/csaf"] none).consTrace
        (.wellKnown ".well-known/csaf") :=
  null_decode_not_success.1 Examples.envNullBody "https://example.com" ".well-known/csaf"
    ["security/data/csaf", "advisories/csaf", "security/csaf"] none (by rfl)

/-- C4 counterexample: a JSON decode error at well-known path #1 does not
abort discovery — the resolver reports no error, continues, and succeeds at
path #2. -/
theorem download_decode_error_cex :
    Examples.envDecodeErr.fetch "https://example.com/.well-known/csaf" =
      .response 200 (.content (.error "invalid character at offset 0")) ∧
    (locateProviderMetadata Examples.envDecodeErr "example.com").err = none ∧
    (locateProviderMetadata Examples.envDecodeErr "example.com").loc =
      "security/data/csaf" ∧
    (locateProviderMetadata Examples.envDecodeErr "example.com").trace =
      [.wellKnown ".well-known/csaf", .wellKnown "security/data/csaf"] :=
  ⟨rfl, by decide, by decide, by decide⟩

/-- C4 amended: the `download` closure maps a JSON decode error of the body
to `errNotFound` (after logging), so the caller of the fetch helper treats
it exactly like NotFound and continues with the next well-known candidate
instead of aborting. -/
theorem download_decode_error_recovered :
    (∀ (mp : Option Csaf.Json) (e : String),
      downloadStep (.response 200 (.content (.error e))) mp = (some .notFound, mp)) ∧
    (∀ (env : Env) (hd loc : String) (rest : List String) (mp : Option Csaf.Json)
      (e : String),
      env.fetch (hd ++ "/" ++ loc) = .response 200 (.content (.error e)) →
      wkLoop env hd (loc :: rest) mp =
        (wkLoop env hd rest mp).consTrace (.wellKnown loc)) := by
  constructor
  · intro mp e; rfl
  · intro env hd loc rest mp e h
    apply wkLoop_cons_of_notFound
    rw [h]
    rfl

/-- Witness for C4's amended statement in a concrete environment. -/
theorem download_decode_error_recovered_witness :
    wkLoop Examples.envDecodeErr "https://example.com"
      (".well-known/csaf" ::
        ["security/data/csaf", "advisories/csaf", "security/csaf"]) none =
      (wkLoop Examples.envDecodeErr "https://example.com"
        ["security/data/csaf", "advisories/csaf", "security/csaf"] none).consTrace
        (.wellKnown ".well-known/csaf") :=
  download_decode_error_recovered.2 Examples.envDecodeErr "https://example.com"
    ".well-known/csaf" ["security/data/csaf", "advisories/csaf", "security/csaf"] none
    "invalid character at offset 0" (by rfl)

/-- All four candidates NotFound: the loop exhausts with a nil metadata
value and the full in-order trace. -/
theorem wkLoop_all_notFound (env : Env) (hd : String)
    (h1 : classify (env.fetch (hd ++ "/" ++ ".well-known/csaf")) = .notFound)
    (h2 : classify (env.fetch (hd ++ "/" ++ "security/data/csaf")) = .notFound)
    (h3 : classify (env.fetch (hd ++ "/" ++ "advisories/csaf")) = .notFound)
    (h4 : classify (env.fetch (hd ++ "/" ++ "security/csaf")) = .notFound) :
    wkLoop env hd providerMetadataLocations none =
      .exhausted none (providerMetadataLocations.map Target.wellKnown) := by
  simp only [providerMetadataLocations]
  rw [wkLoop_cons_of_notFound _ _ _ _ _ h1, wkLoop_cons_of_notFound _ _ _ _ _ h2,
      wkLoop_cons_of_notFound _ _ _ _ _ h3, wkLoop_cons_of_notFound _ _ _ _ _ h4]
  rfl

/-- C5 amended: with all four well-known paths exhausted, a 200 security.txt
whose extraction yields zero URLs fails with the explicit error the code
spells "no provider-metadata.json found in secturity.txt" (sic); a non-200
security.txt makes the resolver report NotFound; and a non-empty extraction
makes its first URL the resolved location, which is fetched as the final
metadata document. -/
theorem locate_securitytxt_branch :
    (∀ (env : Env) (domain : String) (lines : List String),
      classify (env.fetch (httpsDomain domain ++ "/" ++ ".well-known/csaf")) = .notFound →
      classify (env.fetch (httpsDomain domain ++ "/" ++ "security/data/csaf")) = .notFound →
      classify (env.fetch (httpsDomain domain ++ "/" ++ "advisories/csaf")) = .notFound →
      classify (env.fetch (httpsDomain domain ++ "/" ++ "security/csaf")) = .notFound →
      env.secGet = .response 200 lines →
      ExtractProviderURL lines false = [] →
      locateProviderMetadata env domain =
        ⟨some (.msg "no provider-metadata.json found in secturity.txt"), "", none,
         providerMetadataLocations.map Target.wellKnown ++ [Target.securityTxt]⟩) ∧
    (∀ (env : Env) (domain : String) (status : Nat) (lines : List String),
      classify (env.fetch (httpsDomain domain ++ "/" ++ ".well-known/csaf")) = .notFound →
      classify (env.fetch (httpsDomain domain ++ "/" ++ "security/data/csaf")) = .notFound →
      classify (env.fetch (httpsDomain domain ++ "/" ++ "advisories/csaf")) = .notFound →
      classify (env.fetch (httpsDomain domain ++ "/" ++ "security/csaf")) = .notFound →
      env.secGet = .response status lines →
      status ≠ 200 →
      locateProviderMetadata env domain =
        ⟨some .notFound, "", none,
         providerMetadataLocations.map Target.wellKnown ++ [Target.securityTxt]⟩) ∧
    (∀ (env : Env) (domain : String) (lines : List String) (u : String) (us : List String),
      classify (env.fetch (httpsDomain domain ++ "/" ++ ".well-known/csaf")) = .notFound →
      classify (env.fetch (httpsDomain domain ++ "/" ++ "security/data/csaf")) = .notFound →
      classify (env.fetch (httpsDomain domain ++ "/" ++ "advisories/csaf")) = .notFound →
      classify (env.fetch (httpsDomain domain ++ "/" ++ "security/csaf")) = .notFound →
      env.secGet = .response 200 lines →
      ExtractProviderURL lines false = u :: us →
      locateProviderMetadata env domain =
        ⟨(downloadStep (env.fetch u) none).1, u, (downloadStep (env.fetch u) none).2,
         providerMetadataLocations.map Target.wellKnown ++
           [Target.securityTxt, Target.direct u]⟩) := by
  refine ⟨fun env domain lines h1 h2 h3 h4 hsec hex => ?_,
          fun env domain status lines h1 h2 h3 h4 hsec hst => ?_,
          fun env domain lines u us h1 h2 h3 h4 hsec hex => ?_⟩
  · have hwk := wkLoop_all_notFound env (httpsDomain domain) h1 h2 h3 h4
    simp [locateProviderMetadata, hwk, hsec, hex]
  · have hwk := wkLoop_all_notFound env (httpsDomain domain) h1 h2 h3 h4
    have hb : (status != 200) = true := by simpa using hst
    simp [locateProviderMetadata, hwk, hsec, hb]
  · have hwk := wkLoop_all_notFound env (httpsDomain domain) h1 h2 h3 h4
    simp [locateProviderMetadata, hwk, hsec, hex]

/-- Witness for C5's amended statement: a security.txt without a CSAF line
yields the explicit (misspelled) error after the full well-known sweep. -/
theorem locate_securitytxt_branch_witness :
    locateProviderMetadata Examples.envNoCSAFLine "example.com" =
      ⟨some (.msg "no provider-metadata.json found in secturity.txt"), "", none,
       providerMetadataLocations.map Target.wellKnown ++ [Target.securityTxt]⟩ :=
  locate_securitytxt_branch.1 Examples.envNoCSAFLine "example.com"
    ["Contact: mailto:security@example.com"] (by rfl) (by rfl) (by rfl) (by rfl) rfl rfl

/-- C5 counterexample: the error message spelled by the code differs from
the one the claim states (the code writes "secturity.txt"). -/
theorem securitytxt_error_message_cex :
    (locateProviderMetadata Examples.envNoCSAFLine "example.com").err =
      some (.msg "no provider-metadata.json found in secturity.txt") ∧
    "no provider-metadata.json found in secturity.txt" ≠
      "no provider-metadata.json found in security.txt" :=
  ⟨by decide, by decide⟩

end Aggregator

namespace Csaf

/-! ### Round-trip lemmas: each decoder inverts its encoder under the
decode-time side conditions -/

theorem decPattern_encOptStr (check : String → Bool) (what : String) (o : Option String)
    (h : optCheck check o = true) : decPattern check what (encOptStr o) = .ok o := by
  cases o with
  | none => rfl
  | some s =>
    simp only [optCheck] at h
    simp [encOptStr, decPattern, h]

theorem decOptBool_enc (o : Option Bool) : decOptBool (encOptBool o) = .ok o := by
  cases o <;> rfl

theorem decOptTS_enc (o : Option TimeStamp) (h : tsRT o = true) :
    decOptTS (encOptTS o) = .ok o := by
  cases o with
  | none => rfl
  | some t =>
    cases hp : tsParse (tsMarshal t) with
    | error e => simp [tsRT, hp] at h
    | ok u =>
      simp only [tsRT, hp, decide_eq_true_eq] at h
      simp [encOptTS, decOptTS, hp, h, Except.map]

theorem decOptPlainString_enc (o : Option String) :
    decOptPlainString (encOptStr o) = .ok o := by
  cases o <;> rfl

theorem decJSONURLElem_str (s : String) (h : matchesJSONURL s = true) :
    decJSONURLElem (.str s) = .ok s := by
  simp [decJSONURLElem, h]

theorem decodeList_enc {α : Type} (dec : Json → Except String α) (enc : α → Json)
    (l : List α) (h : ∀ x ∈ l, dec (enc x) = .ok x) :
    decodeList dec (.arr (l.map enc)) = .ok l := by
  induction l with
  | nil => rfl
  | cons x xs ih =>
    have hx : dec (enc x) = .ok x := h x (by simp)
    have hxs := ih (fun y hy => h y (by simp [hy]))
    simp only [decodeList] at hxs ⊢
    simp only [List.map_cons]
    rw [List.mapM_cons, hx, hxs]
    rfl

theorem decodeFeed_enc (f : Feed) (h : feedRT f = true) :
    decodeFeed (encodeFeed f) = .ok f := by
  obtain ⟨s, tlp, url⟩ := f
  rw [feedRT, Bool.and_eq_true] at h
  have h1 := decPattern_encOptStr tlpLabelOK "the TLP label alternatives" tlp h.1
  have h2 := decPattern_encOptStr matchesJSONURL "the JSON URL pattern" url h.2
  simp [encodeFeed, decodeFeed, decField, getField, h1, h2, decPlainString]
  rfl

theorem decodeROLIE_enc (r : ROLIE) (h : rolieRT r = true) :
    decodeROLIE (encodeROLIE r) = .ok r := by
  obtain ⟨cats, feeds, svcs⟩ := r
  rw [rolieRT, Bool.and_eq_true, Bool.and_eq_true] at h
  have hcats : decodeList decJSONURLElem (.arr (cats.map .str)) = .ok cats :=
    decodeList_enc _ _ _ (fun x hx =>
      decJSONURLElem_str x (List.all_eq_true.mp h.1.1 x hx))
  have hfeeds : decodeList decodeFeed (.arr (feeds.map encodeFeed)) = .ok feeds :=
    decodeList_enc _ _ _ (fun x hx =>
      decodeFeed_enc x (List.all_eq_true.mp h.1.2 x hx))
  have hsvcs : decodeList decJSONURLElem (.arr (svcs.map .str)) = .ok svcs :=
    decodeList_enc _ _ _ (fun x hx =>
      decJSONURLElem_str x (List.all_eq_true.mp h.2 x hx))
  cases hc : cats.isEmpty with
  | true =>
    have hce : cats = [] := List.isEmpty_iff.mp hc
    subst hce
    cases hs : svcs.isEmpty with
    | true =>
      have hse : svcs = [] := List.isEmpty_iff.mp hs
      subst hse
      simp [encodeROLIE, optField, decodeROLIE, decField, getField, hfeeds]
      rfl
    | false =>
      simp [encodeROLIE, optField, hs, decodeROLIE, decField, getField, hfeeds, hsvcs]
      rfl
  | false =>
    cases hs : svcs.isEmpty with
    | true =>
      have hse : svcs = [] := List.isEmpty_iff.mp hs
      subst hse
      simp [encodeROLIE, optField, hc, decodeROLIE, decField, getField, hcats, hfeeds]
      rfl
    | false =>
      simp [encodeROLIE, optField, hc, hs, decodeROLIE, decField, getField,
            hcats, hfeeds, hsvcs]
      rfl

theorem decodeDistribution_enc (d : Distribution) (h : distRT d = true) :
    decodeDistribution (encodeDistribution d) = .ok d := by
  obtain ⟨du, rolie⟩ := d
  rw [distRT] at h
  have hrolie : decodeList decodeROLIE (.arr (rolie.map encodeROLIE)) = .ok rolie :=
    decodeList_enc _ _ _ (fun x hx =>
      decodeROLIE_enc x (List.all_eq_true.mp h x hx))
  cases hdu : du == "" with
  | true =>
    have : du = "" := by simpa using hdu
    subst this
    simp [encodeDistribution, optField, decodeDistribution, decField, getField, hrolie]
    rfl
  | false =>
    simp [encodeDistribution, optField, bne, hdu, decodeDistribution, decField,
          getField, hrolie, decPlainString]
    rfl

theorem decodePGPKey_enc (k : PGPKey) (h : pgpRT k = true) :
    decodePGPKey (encodePGPKey k) = .ok k := by
  obtain ⟨fp, url⟩ := k
  rw [pgpRT] at h
  cases hfp : fp == "" with
  | true =>
    have : fp = "" := by simpa using hfp
    subst this
    simp [encodePGPKey, optField, decodePGPKey, decField, getField,
          decOptPlainString_enc]
    rfl
  | false =>
    have hm : matchesFingerprint fp = true := by
      rw [hfp, Bool.false_or] at h
      exact h
    simp [encodePGPKey, optField, bne, hfp, decodePGPKey, decField, getField,
          decFingerprint, hm, decOptPlainString_enc]
    rfl

theorem decOptPublisher_enc (p : Publisher) (h : publisherRT (some p) = true) :
    decOptPublisher (encodePublisher p) = .ok (some p) := by
  obtain ⟨cat, name, ns, cd, ia⟩ := p
  rw [publisherRT] at h
  have hcat := decPattern_encOptStr csafCategoryOK "the category alternatives" cat h
  cases hcd : cd == "" with
  | true =>
    have : cd = "" := by simpa using hcd
    subst this
    cases hia : ia == "" with
    | true =>
      have : ia = "" := by simpa using hia
      subst this
      simp [encodePublisher, optField, decOptPublisher, decField, getField, hcat,
            decOptPlainString_enc]
      rfl
    | false =>
      simp [encodePublisher, optField, bne, hia, decOptPublisher, decField, getField,
            hcat, decOptPlainString_enc, decPlainString]
      rfl
  | false =>
    cases hia : ia == "" with
    | true =>
      have : ia = "" := by simpa using hia
      subst this
      simp [encodePublisher, optField, bne, hcd, decOptPublisher, decField, getField,
            hcat, decOptPlainString_enc, decPlainString]
      rfl
    | false =>
      simp [encodePublisher, optField, bne, hcd, hia, decOptPublisher, decField,
            getField, hcat, decOptPlainString_enc, decPlainString]
      rfl

theorem decodeProviderMetadata_enc (pmd : ProviderMetadata) (h : pmdRT pmd = true) :
    decodeProviderMetadata (encodeProviderMetadata pmd) = .ok pmd := by
  obtain ⟨cu, dists, lu, lo, mv, mo, pks, pub, role⟩ := pmd
  simp only [pmdRT, Bool.and_eq_true] at h
  obtain ⟨⟨⟨⟨⟨⟨ha, hb⟩, hc⟩, hd⟩, he⟩, hf⟩, hg⟩ := h
  have hcu := decPattern_encOptStr matchesProviderURL "the provider URL pattern" cu ha
  have hdists : decodeList decodeDistribution (.arr (dists.map encodeDistribution)) =
      .ok dists :=
    decodeList_enc _ _ _ (fun x hx =>
      decodeDistribution_enc x (List.all_eq_true.mp hb x hx))
  have hlu := decOptTS_enc lu hc
  have hmv := decPattern_encOptStr metadataVersionOK "the metadata version alternatives" mv hd
  have hpks : decodeList decodePGPKey (.arr (pks.map encodePGPKey)) = .ok pks :=
    decodeList_enc _ _ _ (fun x hx =>
      decodePGPKey_enc x (List.all_eq_true.mp he x hx))
  have hpub : decOptPublisher (encOptPublisher pub) = .ok pub := by
    cases pub with
    | none => rfl
    | some p => exact decOptPublisher_enc p hf
  have hrole := decPattern_encOptStr metadataRoleOK "the metadata role alternatives" role hg
  cases hdi : dists.isEmpty with
  | true =>
    have hde : dists = [] := List.isEmpty_iff.mp hdi
    subst hde
    cases hpk : pks.isEmpty with
    | true =>
      have hpe : pks = [] := List.isEmpty_iff.mp hpk
      subst hpe
      simp [encodeProviderMetadata, optField, decodeProviderMetadata, decField,
            getField, hcu, hlu, hmv, hpub, hrole, decOptBool_enc]
      rfl
    | false =>
      simp [encodeProviderMetadata, optField, hpk, decodeProviderMetadata, decField,
            getField, hcu, hlu, hmv, hpks, hpub, hrole, decOptBool_enc]
      rfl
  | false =>
    cases hpk : pks.isEmpty with
    | true =>
      have hpe : pks = [] := List.isEmpty_iff.mp hpk
      subst hpe
      simp [encodeProviderMetadata, optField, hdi, decodeProviderMetadata, decField,
            getField, hcu, hdists, hlu, hmv, hpub, hrole, decOptBool_enc]
      rfl
    | false =>
      simp [encodeProviderMetadata, optField, hdi, hpk, decodeProviderMetadata,
            decField, getField, hcu, hdists, hlu, hmv, hpks, hpub, hrole,
            decOptBool_enc]
      rfl

/-! ### Defaults lemmas -/

theorem defaults_idem (pmd : ProviderMetadata) : pmd.Defaults.Defaults = pmd.Defaults := by
  obtain ⟨cu, dists, lu, lo, mv, mo, pks, pub, role⟩ := pmd
  cases role <;> cases lo <;> cases mo <;> cases mv <;> simp [ProviderMetadata.Defaults]

theorem defaults_fills (pmd : ProviderMetadata) :
    pmd.Defaults.Role.isSome = true ∧
    pmd.Defaults.ListOnCSAFAggregators.isSome = true ∧
    pmd.Defaults.MirrorOnCSAFAggregators.isSome = true ∧
    pmd.Defaults.MetadataVersion.isSome = true := by
  obtain ⟨cu, dists, lu, lo, mv, mo, pks, pub, role⟩ := pmd
  cases role <;> cases lo <;> cases mo <;> cases mv <;> simp [ProviderMetadata.Defaults]

/-- C6 amended: `Save` followed by `LoadProviderMetadata` reproduces the
original document with `Defaults` applied (so both sides agree once
`Defaults` is applied to each), for every document that passes `Validate`
and in addition satisfies the decode-time side conditions `pmdRT` — the
patterns that `Validate` itself never checks but the decoder's
`UnmarshalText` methods enforce, and a timestamp that survives the RFC3339
rendering (no fractional seconds). Without `pmdRT` the law fails (see the
counterexample). -/
theorem save_load_roundtrip (pmd : ProviderMetadata)
    (hval : pmd.Validate = none) (hrt : pmdRT pmd = true) :
    LoadProviderMetadata pmd.Save = .ok pmd.Defaults ∧
    pmd.Defaults.Defaults = pmd.Defaults := by
  have hdec := decodeProviderMetadata_enc pmd hrt
  constructor
  · simp only [LoadProviderMetadata, ProviderMetadata.Save]
    rw [hdec]
    show (match pmd.Validate with
          | some e => Except.error e
          | none => Except.ok pmd.Defaults) = Except.ok pmd.Defaults
    rw [hval]
  · exact defaults_idem pmd

/-- Witness for C6's amended statement at a concrete fully-featured
document. -/
theorem save_load_roundtrip_witness :
    LoadProviderMetadata (ProviderMetadata.Save Examples.pmdRoundtrip) =
      .ok (ProviderMetadata.Defaults Examples.pmdRoundtrip) :=
  (save_load_roundtrip Examples.pmdRoundtrip (by rfl) (by decide)).1

/-- C6 counterexample: a document that passes `Validate` (hence is a valid
constructed document) whose canonical URL does not match the decoder's
pattern fails to load back at all — `Save` then `LoadProviderMetadata`
returns an error, not the original document. -/
theorem save_load_roundtrip_cex :
    ProviderMetadata.Validate Examples.pmdBadCanonical = none ∧
    LoadProviderMetadata (ProviderMetadata.Save Examples.pmdBadCanonical) =
      .error "https://example.com/metadata.json does not match the provider URL pattern" :=
  ⟨rfl, by rfl⟩

/-- C10: every document `LoadProviderMetadata` returns has passed through
`Defaults` after validation, so its role, both aggregator flags and the
metadata version are all non-nil. -/
theorem load_applies_defaults (j : Json) (pmd : ProviderMetadata)
    (h : LoadProviderMetadata j = .ok pmd) :
    pmd.Role.isSome = true ∧
    pmd.ListOnCSAFAggregators.isSome = true ∧
    pmd.MirrorOnCSAFAggregators.isSome = true ∧
    pmd.MetadataVersion.isSome = true := by
  rcases hdec : decodeProviderMetadata j with e | pmd0
  · rw [LoadProviderMetadata, hdec] at h
    have h2 : (Except.error e : Except String ProviderMetadata) = Except.ok pmd := h
    simp at h2
  · rw [LoadProviderMetadata, hdec] at h
    have h2 : (match pmd0.Validate with
               | some e => Except.error e
               | none => Except.ok pmd0.Defaults) = Except.ok pmd := h
    rcases hv : pmd0.Validate with _ | e2
    · rw [hv] at h2
      have h3 : pmd0.Defaults = pmd := by simpa using h2
      rw [← h3]
      exact defaults_fills pmd0
    · rw [hv] at h2
      simp at h2

/-- Witness for C10: a document omitting role and both aggregator flags
loads with all four fields filled. -/
theorem load_applies_defaults_witness :
    Examples.pmdNoRoleLoaded.Role.isSome = true ∧
    Examples.pmdNoRoleLoaded.ListOnCSAFAggregators.isSome = true ∧
    Examples.pmdNoRoleLoaded.MirrorOnCSAFAggregators.isSome = true ∧
    Examples.pmdNoRoleLoaded.MetadataVersion.isSome = true :=
  load_applies_defaults Examples.jNoRole Examples.pmdNoRoleLoaded (by rfl)

end Csaf
